import Mathlib

/-!
A shallow embedding of the tool-calling core of a fantasy-football analysis
program, together with proofs about it.  The embedding covers:

* the league-data tool handlers of `fantasy_data.py`
  (`get_waiver_wire_for_tool`, `get_team_details_for_tool`,
  `get_player_stats_for_tool` and their helpers), and
* the conversation driver, tool dispatcher and retry wrapper of `main.py`
  (`analyze_with_openai` and `responses_with_backoff`).

Modelling conventions:

* Python floats are modelled as rationals (`ℚ`); `round(x, n)` is modelled by
  `pyRound n`, round half to even, as Python documents for `round`.
* A Python attribute that the code probes with `hasattr` becomes an `Option`
  field, `none` meaning the attribute is missing.  An unguarded attribute
  access on a missing attribute raises `AttributeError`; fallible code
  returns `Except PyExc`.
* Python dicts that carry data keyed by week are association lists.
* `sorted(xs, key=k, reverse=True)` is modelled by a stable insertion sort
  with the relation "the key of the right element is at most the key of the
  left element", which matches CPython's stable descending sort.
* Rational constants are written with `mkRat` so that concrete runs of the
  definitions reduce inside the kernel.
-/

attribute [local semireducible] Rat.add Rat.mul Rat.sub

namespace FantasyAgent

/-! ### Python `round`: round half to even on exact rationals -/

/-- Round half to even to an integer: the model of Python builtin `round`
applied to an exact rational value. -/
def rhe (q : ℚ) : ℤ :=
  if Int.fract q < mkRat 1 2 then ⌊q⌋
  else if mkRat 1 2 < Int.fract q then ⌊q⌋ + 1
  else if ⌊q⌋ % 2 = 0 then ⌊q⌋ else ⌊q⌋ + 1

/-- Python `round(q, n)`: round half to even at `n` decimal digits. -/
def pyRound (n : ℕ) (q : ℚ) : ℚ := mkRat (rhe (q * mkRat (10 ^ n) 1)) (10 ^ n)

/-! ### Python-style helpers -/

/-- Python exceptions, kept abstract: an `AttributeError` from an unguarded
attribute access, or any exception raised by an external call (network, API,
a handler given to the retry wrapper, ...). -/
inductive PyExc where
  | attributeError (attr : String)
  | exception (msg : String)
  deriving DecidableEq

/-- A fallible Python computation. -/
abbrev Py (α : Type) := Except PyExc α

instance exceptDecEq {ε α : Type} [DecidableEq ε] [DecidableEq α] :
    DecidableEq (Except ε α) := fun x y =>
  match x, y with
  | .ok a, .ok b =>
    if h : a = b then isTrue (by rw [h])
    else isFalse (fun hc => h (Except.ok.inj hc))
  | .ok _, .error _ => isFalse (fun hc => Except.noConfusion hc)
  | .error _, .ok _ => isFalse (fun hc => Except.noConfusion hc)
  | .error e, .error f =>
    if h : e = f then isTrue (by rw [h])
    else isFalse (fun hc => h (Except.error.inj hc))

/-- Python truthiness of an optional string (`None` and `""` are falsy). -/
def strTruthy : Option String → Bool
  | none => false
  | some s => s ≠ ""

/-- Python `str(...)` of an optional int, as interpolated into f-strings:
`None` prints as `"None"`. -/
def pyStrOptInt : Option ℤ → String
  | none => "None"
  | some v => toString v

/-- `sorted(xs, key=key, reverse=True)`: CPython's sort is stable; a stable
insertion sort placing greater-or-equal keys first reproduces it. -/
def sortByKeyDesc {α : Type} (key : α → ℚ) (l : List α) : List α :=
  List.insertionSort (fun a b => key b ≤ key a) l

/-- `sorted(xs, key=key)` for a natural-number key, ascending and stable. -/
def sortByNatKey {α : Type} (key : α → ℕ) (l : List α) : List α :=
  List.insertionSort (fun a b => key a ≤ key b) l

/-! ### League snapshot data model (duck-typed provider records)

Fields the code probes with `hasattr` are `Option`s; `str_repr` stands for
Python `str(player)`, the fallback the code uses for a missing `name`. -/

/-- One entry of a player's `stats` dict: the per-week sub-dict with the keys
the code reads (`projected_points`, `points`, `projected_breakdown`). -/
structure WeekStats where
  projected_points : Option ℚ := none
  points : Option ℚ := none
  projected_breakdown : Option (List (String × ℚ)) := none
  deriving DecidableEq

structure Player where
  playerId : Option ℤ := none
  name : Option String := none
  str_repr : String := ""
  position : Option String := none
  proTeam : Option String := none
  lineupSlot : Option String := none
  injuryStatus : Option String := none
  projected_avg_points : Option ℚ := none
  stats : Option (List (ℕ × WeekStats)) := none
  deriving DecidableEq

structure Team where
  team_id : Option ℤ := none
  team_name : String := ""
  wins : ℕ := 0
  losses : ℕ := 0
  points_for : ℚ := 0
  points_against : Option ℚ := none
  roster : Option (List Player) := none
  deriving DecidableEq

/-- The league handle: the read-only provider.  `free_agents` is the remote
call `league.free_agents(size=...)`, which may raise. -/
structure League where
  current_week : ℕ
  teams : List Team
  free_agents : ℕ → Py (List Player)

/-! ### fantasy_data.py -/

/-- The `BYE_WEEKS` table of `fantasy_data.py`. -/
def BYE_WEEKS : List (String × ℕ) :=
  [("ARI", 8), ("ATL", 5), ("BAL", 7), ("BUF", 7), ("CAR", 14), ("CHI", 5),
   ("CIN", 10), ("CLE", 9), ("DAL", 10), ("DEN", 12), ("DET", 8), ("GB", 5),
   ("HOU", 6), ("IND", 11), ("JAX", 8), ("KC", 10), ("LV", 8), ("LAC", 12),
   ("LAR", 8), ("MIA", 12), ("MIN", 6), ("NE", 14), ("NO", 11), ("NYG", 14),
   ("NYJ", 9), ("PHI", 9), ("PIT", 5), ("SF", 14), ("SEA", 8), ("TB", 9),
   ("TEN", 10), ("WSH", 12)]

/-- `get_player_bye_week`: bye week looked up by `proTeam`, `None` when the
attribute is missing or the team is not in the table. -/
def get_player_bye_week (p : Player) : Option ℕ :=
  match p.proTeam with
  | some t => (BYE_WEEKS.find? (fun kv => kv.1 == t)).map (fun kv => kv.2)
  | none => none

/-- The current-week projection block that `fantasy_data.py` inlines in
`get_waiver_wire_for_tool` and in the roster summaries:
`player.stats[league.current_week]['projected_points']` when `stats` exists
and has both keys, else `0`. -/
def weeklyProjection (league : League) (p : Player) : ℚ :=
  match p.stats with
  | none => 0
  | some st =>
    match st.find? (fun kv => kv.1 == league.current_week) with
    | some kv =>
      match kv.2.projected_points with
      | some v => v
      | none => 0
    | none => 0

/-- One entry of the waiver tool's `available_players` list. -/
structure PlayerInfo where
  player_id : Option ℤ
  name : String
  position : String
  team : String
  projected_points : ℚ
  bye_week : Option ℕ
  injury_status : Option String
  deriving DecidableEq

/-- The three shapes `get_waiver_wire_for_tool` returns: the invalid-position
error dict, the empty-result message dict, or the success dict. -/
inductive WaiverResult where
  | error (msg : String)
  | message (msg : String)
  | players (position : String) (available_players : List PlayerInfo)
      (count : ℕ) (note : String)
  deriving DecidableEq

/-- The `player_info` dict built per free agent in `get_waiver_wire_for_tool`
(projection not yet rounded; the rounding loop runs after sorting). -/
def mkPlayerInfo (league : League) (p : Player) : PlayerInfo :=
  { player_id := p.playerId
    name := p.name.getD p.str_repr
    position := p.position.getD "N/A"
    team := p.proTeam.getD "N/A"
    projected_points := weeklyProjection league p
    bye_week := get_player_bye_week p
    injury_status := p.injuryStatus }

/-- The `DST` vs `D/ST` renaming step of `get_waiver_wire_for_tool`. -/
def normalizePosition (position0 : Option String) : Option String :=
  if position0 = some "DST" then some "D/ST" else position0

/-- The `continue` filter of the free-agent loop: drop a player only when a
position filter is in force, the player has a `position` attribute and it
differs from the filter. -/
def positionFilter (position : Option String) (p : Player) : Bool :=
  !(strTruthy position && p.position.isSome && (p.position != position))

/-- The body of the free-agent loop: admit the player's `player_info` dict
when the current-week projection exceeds `2.0`. -/
def waiverSelect (league : League) (p : Player) : Option PlayerInfo :=
  if weeklyProjection league p > mkRat 2 1 then some (mkPlayerInfo league p)
  else none

/-- The rounding pass over the selected entries. -/
def roundInfo (x : PlayerInfo) : PlayerInfo :=
  { x with projected_points := pyRound 1 x.projected_points }

/-- `get_waiver_wire_for_tool(league, position, size)`. -/
def get_waiver_wire_for_tool (league : League) (position0 : Option String)
    (size : ℕ) : Py WaiverResult := do
  if strTruthy position0 = true ∧
      position0.getD "" ∉ (["QB", "RB", "WR", "TE", "K", "D/ST", "DST"] : List String) then
    return .error ("Invalid position: " ++ position0.getD "" ++
      ". Valid positions are QB, RB, WR, TE, K, D/ST")
  let position := normalizePosition position0
  let fetch_size : ℕ := if strTruthy position then 75 else 50
  let free_agents ← league.free_agents fetch_size
  let kept := free_agents.filter (positionFilter position)
  let waiver_players := kept.filterMap (waiverSelect league)
  let waiver_data :=
    (sortByKeyDesc (fun x => x.projected_points) waiver_players).take size
  if waiver_data.isEmpty then
    return .message (if strTruthy position
      then "No available players found for position " ++ position.getD ""
      else "No available players found")
  let rounded := waiver_data.map roundInfo
  return .players (if strTruthy position then position.getD "" else "All")
    rounded rounded.length
    "Use get_player_stats tool with player_id for detailed analysis of any player"

/-- One entry of the structured roster summary (starters/bench lists). -/
structure RosterInfo where
  player_id : Option ℤ
  name : String
  position : String
  lineup_slot : String
  projected_points : ℚ
  bye_week : Option ℕ
  injury_status : Option String
  deriving DecidableEq

structure RosterSummary where
  starters : List RosterInfo
  bench : List RosterInfo
  deriving DecidableEq

/-- The projection used by the roster summaries: the current-week projection,
falling back to `projected_avg_points` when the weekly value is `0` and the
average attribute exists. -/
def rosterProjection (league : League) (p : Player) : ℚ :=
  let wp := weeklyProjection league p
  if wp = 0 then
    match p.projected_avg_points with
    | some v => v
    | none => wp
  else wp

/-- The `player_info` dict built per rostered player in
`get_structured_roster_summary_with_ids`. -/
def mkRosterInfo (league : League) (p : Player) : RosterInfo :=
  { player_id := p.playerId
    name := p.name.getD "Unknown"
    position := p.position.getD "N/A"
    lineup_slot := p.lineupSlot.getD "BE"
    projected_points := pyRound 1 (rosterProjection league p)
    bye_week := get_player_bye_week p
    injury_status := p.injuryStatus.bind (fun s => if s = "" then none else some s) }

def lineup_slot_order : List String :=
  ["QB", "RB", "WR", "TE", "RB/WR/TE", "K", "D/ST"]

/-- The starter sort key: position of the lineup slot in `lineup_slot_order`,
`999` when the slot is not listed. -/
def slotKey (x : RosterInfo) : ℕ :=
  if x.lineup_slot ∈ lineup_slot_order then lineup_slot_order.indexOf x.lineup_slot
  else 999

/-- `get_structured_roster_summary_with_ids(league, team)`. -/
def get_structured_roster_summary_with_ids (league : League) (team : Team) :
    RosterSummary :=
  let infos := (team.roster.getD []).map (mkRosterInfo league)
  let starters := infos.filter (fun x => decide (x.lineup_slot ∉ ["BE", "IR"]))
  let bench := infos.filter (fun x =>
    decide (x.lineup_slot ∈ ["BE", "IR"]) && decide (x.lineup_slot ∉ ["IR"]))
  { starters := sortByNatKey slotKey starters
    bench := sortByKeyDesc (fun x => x.projected_points) bench }

/-- `calculate_roster_strength(team)`: the rounded sum of the roster's
average projections (players missing the attribute contribute nothing). -/
def calculate_roster_strength (team : Team) : ℚ :=
  pyRound 2 ((team.roster.getD []).foldl
    (fun acc p => acc + p.projected_avg_points.getD 0) 0)

/-- The two shapes `get_team_details_for_tool` returns. -/
inductive TeamResult where
  | error (msg : String)
  | details (team_name : String) (record : String)
      (points_for points_against roster_strength : ℚ)
      (lineup : RosterSummary) (note : String)
  deriving DecidableEq

/-- `get_team_details_for_tool(league, team_id)`. -/
def get_team_details_for_tool (league : League) (team_id : Option ℤ) :
    TeamResult :=
  match league.teams.find? (fun t =>
      match t.team_id with
      | some v => team_id == some v
      | none => false) with
  | none => .error ("Team with ID '" ++ pyStrOptInt team_id ++ "' not found")
  | some target_team =>
    .details target_team.team_name
      (toString target_team.wins ++ "-" ++ toString target_team.losses)
      target_team.points_for
      (target_team.points_against.getD 0)
      (calculate_roster_strength target_team)
      (get_structured_roster_summary_with_ids league target_team)
      "Use get_player_stats tool with player_id for detailed player analysis"

/-- The per-position breakdown dict for RB/WR/TE players. -/
structure SkillBreakdown where
  rushing_attempts : ℚ
  rushing_yards : ℚ
  rushing_tds : ℚ
  receiving_targets : ℚ
  receiving_receptions : ℚ
  receiving_yards : ℚ
  receiving_tds : ℚ
  deriving DecidableEq

/-- The per-position breakdown dict for QB players. -/
structure QBBreakdown where
  passing_attempts : ℚ
  passing_completions : ℚ
  passing_yards : ℚ
  passing_tds : ℚ
  rushing_attempts : ℚ
  rushing_yards : ℚ
  deriving DecidableEq

inductive BreakdownOut where
  | skill (b : SkillBreakdown)
  | qb (b : QBBreakdown)
  deriving DecidableEq

/-- One week's entry of the `weekly_stats` dict built by
`get_player_stats_for_tool`. -/
structure WeekData where
  projected_points : ℚ
  actual_points : ℚ
  status : String
  breakdown : Option BreakdownOut := none
  deriving DecidableEq

/-- The two shapes `get_player_stats_for_tool` returns. -/
inductive PlayerStatsResult where
  | error (msg : String)
  | stats (player_id : Option ℤ) (name : String)
      (position team fantasy_team : String) (projected_avg_points : ℚ)
      (bye_week : Option ℕ) (injury_status : Option String)
      (weekly_stats : List (ℕ × WeekData))
  deriving DecidableEq

/-- `breakdown.get(key, 0)` on the projected-breakdown dict. -/
def bdGet (bd : List (String × ℚ)) (key : String) : ℚ :=
  ((bd.find? (fun kv => kv.1 == key)).map (fun kv => kv.2)).getD 0

/-- The `weekly_data` dict built for one week in `get_player_stats_for_tool`.
`player.position` is read without a `hasattr` guard when a projected
breakdown is present, so a missing attribute raises there. -/
def mkWeekData (p : Player) (ws : WeekStats) : Py WeekData := do
  let base : WeekData :=
    { projected_points := pyRound 1 (ws.projected_points.getD 0)
      actual_points := pyRound 1 (ws.points.getD 0)
      status := if ws.points.getD 0 > 0 then "completed" else "projected" }
  match ws.projected_breakdown with
  | none => pure base
  | some bd =>
    match p.position with
    | none => throw (.attributeError "position")
    | some pos =>
      if pos ∈ (["RB", "WR", "TE"] : List String) then
        pure { base with breakdown := some (.skill
          { rushing_attempts := pyRound 1 (bdGet bd "rushingAttempts")
            rushing_yards := pyRound 1 (bdGet bd "rushingYards")
            rushing_tds := pyRound 1 (bdGet bd "rushingTouchdowns")
            receiving_targets := pyRound 1 (bdGet bd "receivingTargets")
            receiving_receptions := pyRound 1 (bdGet bd "receivingReceptions")
            receiving_yards := pyRound 1 (bdGet bd "receivingYards")
            receiving_tds := pyRound 1 (bdGet bd "receivingTouchdowns") }) }
      else if pos = "QB" then
        pure { base with breakdown := some (.qb
          { passing_attempts := pyRound 1 (bdGet bd "passingAttempts")
            passing_completions := pyRound 1 (bdGet bd "passingCompletions")
            passing_yards := pyRound 1 (bdGet bd "passingYards")
            passing_tds := pyRound 1 (bdGet bd "passingTouchdowns")
            rushing_attempts := pyRound 1 (bdGet bd "rushingAttempts")
            rushing_yards := pyRound 1 (bdGet bd "rushingYards") }) }
      else pure base

/-- Python dict assignment `weekly_stats[week] = weekly_data`: overwrite in
place when the key exists, append otherwise. -/
def upsertWeek (k : ℕ) (v : WeekData) (l : List (ℕ × WeekData)) :
    List (ℕ × WeekData) :=
  if l.any (fun kv => kv.1 == k) then
    l.map (fun kv => if kv.1 == k then (k, v) else kv)
  else l ++ [(k, v)]

/-- The `weekly_stats` loop of `get_player_stats_for_tool`: iterate the
player's `stats` items, skip week 0 (preseason), build a `weekly_data` entry
for each remaining week. -/
def buildWeeklyStats (p : Player) :
    List (ℕ × WeekStats) → List (ℕ × WeekData) → Py (List (ℕ × WeekData))
  | [], acc => pure acc
  | (week, ws) :: rest, acc =>
    if week == 0 then buildWeeklyStats p rest acc
    else do
      let wd ← mkWeekData p ws
      buildWeeklyStats p rest (upsertWeek week wd acc)

/-- The search condition of `get_player_stats_for_tool`:
`hasattr(player, 'playerId') and player.playerId == player_id`. -/
def playerMatches (player_id : Option ℤ) (p : Player) : Bool :=
  match p.playerId with
  | some v => player_id == some v
  | none => false

/-- The nested team/roster search of `get_player_stats_for_tool`: first team
whose roster holds a matching player, with that player. -/
def findRosteredPlayer (teams : List Team) (player_id : Option ℤ) :
    Option (Team × Player) :=
  match teams with
  | [] => none
  | t :: ts =>
    match (t.roster.getD []).find? (playerMatches player_id) with
    | some p => some (t, p)
    | none => findRosteredPlayer ts player_id

/-- `get_player_stats_for_tool(league, player_id)`.  `player.name` is read
without a `hasattr` guard on the success path, so a missing name raises. -/
def get_player_stats_for_tool (league : League) (player_id : Option ℤ) :
    Py PlayerStatsResult := do
  match findRosteredPlayer league.teams player_id with
  | none =>
    return .error ("Player with ID '" ++ pyStrOptInt player_id ++ "' not found")
  | some (team, p) =>
    match p.name with
    | none => throw (.attributeError "name")
    | some nm => do
      let weekly ←
        match p.stats with
        | some st => buildWeeklyStats p st []
        | none => pure []
      return .stats p.playerId nm (p.position.getD "N/A") (p.proTeam.getD "N/A")
        team.team_name (pyRound 1 (p.projected_avg_points.getD 0))
        (get_player_bye_week p) p.injuryStatus
        (sortByNatKey (fun kv => kv.1) weekly)

/-! ### main.py: conversation driver, tool dispatcher, retry wrapper -/

/-- One entry of a message item's `content` list. -/
structure ContentItem where
  type : Option String := none
  text : Option String := none
  deriving DecidableEq

/-- One item of a response's `output` array, duck-typed as the driver reads
it: `type` discriminates item kinds; `name`, `arguments` and `call_id` are
read on function-call items; `content` is `some` when the attribute exists
and is a list (the only case the text extraction reads). -/
structure Item where
  type : Option String := none
  name : Option String := none
  arguments : Option String := none
  call_id : Option String := none
  content : Option (List ContentItem) := none
  deriving DecidableEq

/-- A model-host response as the driver reads it: `output` is `none` when
the attribute is missing (the loop's unguarded `response.output` raises
then), `output_text` is the SDK convenience field. -/
structure Response where
  id : String := ""
  output : Option (List Item) := none
  output_text : Option String := none
  deriving DecidableEq

/-- The parsed JSON argument object, restricted to the keys the dispatcher
reads (`position`, `size`, `team_id`, `player_id`). -/
structure Args where
  position : Option String := none
  size : Option ℕ := none
  team_id : Option ℤ := none
  player_id : Option ℤ := none
  deriving DecidableEq

/-- `tool_args = {}`. -/
def emptyArgs : Args := {}

/-- The union of the three local handlers' result types: the value whose
JSON serialization becomes the `output` field of a function_call_output. -/
inductive ToolResult where
  | waiver (r : WaiverResult)
  | team (r : TeamResult)
  | player (r : PlayerStatsResult)
  deriving DecidableEq

/-- One `function_call_output` record of the resubmitted `input`. -/
structure Output where
  type : String := "function_call_output"
  call_id : Option String := none
  output : ToolResult
  deriving DecidableEq

/-- The argument-parsing step of the dispatch loop: `tool_args = {}` unless
the item has an `arguments` attribute whose JSON parse succeeds (a
`json.loads` failure is swallowed and leaves `{}`).  The JSON parser is
external and passed in as `parse`; `parse s = none` models a parse
exception. -/
def parseToolArgs (parse : String → Option Args) (tc : Item) : Args :=
  match tc.arguments with
  | none => emptyArgs
  | some s => (parse s).getD emptyArgs

/-- The dispatch body of `analyze_with_openai` for one collected
function-call item: `some` output when a recognized tool produced a result,
`none` when the item is skipped (no `name` attribute, or a tool name that is
none of get_waiver_wire / get_team_details / get_player_stats, which leaves
`result = None`); a handler exception propagates uncaught. -/
def executeToolCall (league : League) (parse : String → Option Args)
    (tc : Item) : Py (Option Output) := do
  let tool_name := tc.name
  let tool_args := parseToolArgs parse tc
  let tool_call_id := tc.call_id
  match tool_name with
  | none => return none
  | some nm =>
    if nm = "get_waiver_wire" then
      let position := tool_args.position
      let size := tool_args.size.getD 3
      let r ← get_waiver_wire_for_tool league position size
      return some { call_id := tool_call_id, output := .waiver r }
    else if nm = "get_team_details" then
      let team_id := tool_args.team_id
      let r := get_team_details_for_tool league team_id
      return some { call_id := tool_call_id, output := .team r }
    else if nm = "get_player_stats" then
      let player_id := tool_args.player_id
      let r ← get_player_stats_for_tool league player_id
      return some { call_id := tool_call_id, output := .player r }
    else
      return none

/-- The dispatch loop over all collected function-call items, in order; the
collected records are exactly the `input` of the next request. -/
def executeToolCalls (league : League) (parse : String → Option Args) :
    List Item → Py (List Output)
  | [] => pure []
  | tc :: rest => do
    let o ← executeToolCall league parse tc
    let outs ← executeToolCalls league parse rest
    match o with
    | some out => pure (out :: outs)
    | none => pure outs

/-- The scan of a response's output array: items whose `type` equals
`'function_call'` are collected for local dispatch (a `web_search_call` item
is only logged, in the earlier branch of the same scan). -/
def isFunctionCall (it : Item) : Bool := it.type == some "function_call"

def collectFunctionCalls (items : List Item) : List Item :=
  items.filter isFunctionCall

/-- The fallback text extraction of `analyze_with_openai`: in-order
concatenation of the `output_text` fragments of message items. -/
def messageText (items : List Item) : String :=
  items.foldl (fun acc it =>
    if it.type == some "message" then
      match it.content with
      | some cs => cs.foldl (fun a ci =>
          if ci.type == some "output_text" then
            match ci.text with
            | some t => a ++ t
            | none => a
          else a) acc
      | none => acc
    else acc) ""

/-- The return value of `analyze_with_openai` once the loop has ended: the
convenience `output_text` field when present and non-empty, else the
concatenated message text, else the placeholder `"Analysis complete."`. -/
def extractFinalText (r : Response) : String :=
  if strTruthy r.output_text then r.output_text.getD ""
  else
    let final_text :=
      match r.output with
      | some items => messageText items
      | none => ""
    if final_text ≠ "" then final_text else "Analysis complete."

/-- The conversation loop of `analyze_with_openai`.  The model host is an
oracle script: each continuation maps the just-submitted function-call
outputs to the next response (the real call goes through the retry wrapper
with `previous_response_id`); an exhausted script models the retry wrapper
exhausting its attempts, which the driver lets propagate. -/
def runLoop (league : League) (parse : String → Option Args) :
    List (List Output → Response) → Response → Py String
  | host, r =>
    match r.output with
    | none => throw (.attributeError "output")
    | some items =>
      let calls := collectFunctionCalls items
      if calls.isEmpty then pure (extractFinalText r)
      else
        match host with
        | [] => do
          let _ ← executeToolCalls league parse calls
          throw (.exception "RetryError")
        | f :: rest => do
          let outs ← executeToolCalls league parse calls
          runLoop league parse rest (f outs)

/-- tenacity's `wait_exponential(multiplier=1, min=1, max=60)` bound for a
1-based attempt number: `max(max(0, min), min(multiplier * 2**(n-1), max))`.
`wait_random_exponential` draws the actual delay uniformly from
`[0, bound]`.  (tenacity versions differ on whether the exponent is the
attempt number or the attempt number minus one; the bounds proved below
hold for every attempt index, so nothing depends on that choice.) -/
def backoffBound (attempt : ℕ) : ℚ :=
  max (max 0 (mkRat 1 1)) (min (mkRat 1 1 * mkRat 2 1 ^ (attempt - 1)) (mkRat 60 1))

/-- The randomized inter-attempt delay of `wait_random_exponential`:
`uniform(0, bound)`, with `u ∈ [0, 1]` the random draw. -/
def backoffDelay (attempt : ℕ) (u : ℚ) : ℚ := u * backoffBound attempt

/-- The attempt loop of the `@retry(wait=wait_random_exponential(min=1,
max=60), stop=stop_after_attempt(6))` decorator on
`responses_with_backoff`: run attempt `n`, return the first success,
surface the last failure once no retries remain.  `r` counts the retries
still allowed; the result also carries the number of the deciding
attempt. -/
def retryGo {E A : Type} (f : ℕ → Except E A) : ℕ → ℕ → Except E A × ℕ
  | n, 0 => (f n, n)
  | n, r + 1 =>
    match f n with
    | .ok a => (.ok a, n)
    | .error _ => retryGo f (n + 1) r

/-- `responses_with_backoff(**kwargs)`: the wrapped model-host call, at most
6 attempts, any exception class retried.  `f n` is the underlying call's
outcome on attempt `n`. -/
def responses_with_backoff {E A : Type} (f : ℕ → Except E A) :
    Except E A × ℕ :=
  retryGo f 1 5

/-- One dispatch step viewed as a pure projection: the output the dispatch
of one item contributes when it does not raise (`none` both for a skipped
item and — unreachably under a successful run — for a raising one). -/
def execOne (league : League) (parse : String → Option Args) (tc : Item) :
    Option Output :=
  match executeToolCall league parse tc with
  | .ok o => o
  | .error _ => none

/-- Concatenation of a list of strings, in order. -/
def strConcat : List String → String
  | [] => ""
  | s :: rest => s ++ strConcat rest

/-- The text one content entry contributes to the fallback extraction. -/
def fragText (ci : ContentItem) : String :=
  if ci.type == some "output_text" then ci.text.getD "" else ""

/-- The text one content list contributes: its fragments in order. -/
def contentText (cs : List ContentItem) : String := strConcat (cs.map fragText)

/-- The text one output item contributes to the fallback extraction:
message items contribute their fragments in order, other items nothing. -/
def itemText (it : Item) : String :=
  if it.type == some "message" then (it.content.map contentText).getD ""
  else ""

/-! ### Concrete fixtures used by witnesses and counterexamples -/

/-- A minimal league whose provider calls succeed trivially. -/
def sampleLeague : League :=
  { current_week := 1, teams := [], free_agents := fun _ => .ok [] }

/-- A league whose `free_agents` call raises (network failure). -/
def raisingLeague : League :=
  { current_week := 1, teams := [],
    free_agents := fun _ => .error (.exception "ConnectionError") }

/-- A JSON parser that fails on every string. -/
def failingParse : String → Option Args := fun _ => none

/-- A function-call item whose tool name matches no local handler. -/
def unknownToolItem : Item :=
  { type := some "function_call", name := some "does_not_exist",
    arguments := some "{}", call_id := some "call_7" }

/-- A function-call item for the waiver tool with empty arguments. -/
def waiverCallItem : Item :=
  { type := some "function_call", name := some "get_waiver_wire",
    call_id := some "call_1" }

/-- A function-call item for the team-details tool with empty arguments. -/
def teamCallItem : Item :=
  { type := some "function_call", name := some "get_team_details",
    call_id := some "call_2" }

/-- A function-call item for the waiver tool whose argument string is not
JSON. -/
def badArgsItem : Item :=
  { type := some "function_call", name := some "get_waiver_wire",
    arguments := some "not json", call_id := some "call_3" }

/-- A host-native web-search item as it appears in a response's output. -/
def webSearchItem : Item := { type := some "web_search_call" }

/-- A message item carrying the text "done". -/
def doneMessageItem : Item :=
  { type := some "message",
    content := some [{ type := some "output_text", text := some "done" }] }

/-- A response holding two host-native web-search items and one message,
with no convenience text field. -/
def webOnlyResponse : Response :=
  { id := "r1", output := some [webSearchItem, webSearchItem, doneMessageItem] }

/-- A free agent with a current-week projection of 5 points. -/
def agentHigh : Player :=
  { playerId := some 10, name := some "Alpha", position := some "RB",
    stats := some [(1, { projected_points := some (mkRat 5 1) })] }

/-- A free agent with a current-week projection of 3 points. -/
def agentMid : Player :=
  { playerId := some 11, name := some "Bravo", position := some "WR",
    stats := some [(1, { projected_points := some (mkRat 3 1) })] }

/-- A free agent with a projection of 1 point: below the 2.0 cutoff. -/
def agentLow : Player :=
  { playerId := some 12, name := some "Charlie", position := some "TE",
    stats := some [(1, { projected_points := some (mkRat 1 1) })] }

/-- A free agent with no current-week projection at all. -/
def agentNoProj : Player :=
  { playerId := some 13, name := some "Delta", position := some "RB",
    stats := some [] }

/-- A rostered player, distinct from every free agent above. -/
def rosteredPlayer : Player :=
  { playerId := some 1, name := some "Rost", position := some "QB" }

/-- A league with one team and four free agents, two of them above the
projection cutoff. -/
def waiverLeague : League :=
  { current_week := 1
    teams := [{ team_id := some 1, team_name := "Team One",
                roster := some [rosteredPlayer] }]
    free_agents := fun _ => .ok [agentLow, agentMid, agentNoProj, agentHigh] }

/-- The `available_players` list the waiver tool returns on `waiverLeague`
with no position filter and `size = 3`. -/
def waiverOutList : List PlayerInfo :=
  [{ player_id := some 10, name := "Alpha", position := "RB", team := "N/A",
     projected_points := mkRat 5 1, bye_week := none, injury_status := none },
   { player_id := some 11, name := "Bravo", position := "WR", team := "N/A",
     projected_points := mkRat 3 1, bye_week := none, injury_status := none }]

/-! ### Helper lemmas -/

theorem rhe_floor_le (q : ℚ) : ⌊q⌋ ≤ rhe q := by
  unfold rhe; split_ifs <;> omega

theorem rhe_le_floor_add_one (q : ℚ) : rhe q ≤ ⌊q⌋ + 1 := by
  unfold rhe; split_ifs <;> omega

theorem rhe_mono {x y : ℚ} (h : x ≤ y) : rhe x ≤ rhe y := by
  rcases lt_or_le ⌊x⌋ ⌊y⌋ with hf | hf
  · calc rhe x ≤ ⌊x⌋ + 1 := rhe_le_floor_add_one x
      _ ≤ ⌊y⌋ := by omega
      _ ≤ rhe y := rhe_floor_le y
  · have hfe : ⌊x⌋ = ⌊y⌋ := le_antisymm (Int.floor_mono h) hf
    have hfr : Int.fract x ≤ Int.fract y := by
      unfold Int.fract
      rw [hfe]
      exact sub_le_sub_right h _
    unfold rhe
    rw [hfe]
    split_ifs <;> first | omega | linarith

theorem pyRound_mono (n : ℕ) {x y : ℚ} (h : x ≤ y) :
    pyRound n x ≤ pyRound n y := by
  have hm : x * mkRat (10 ^ n) 1 ≤ y * mkRat (10 ^ n) 1 := by
    apply mul_le_mul_of_nonneg_right h
    rw [Rat.mkRat_eq_div]
    positivity
  unfold pyRound
  set a := rhe (x * mkRat (10 ^ n) 1) with ha
  set b := rhe (y * mkRat (10 ^ n) 1) with hb
  rw [Rat.mkRat_eq_div, Rat.mkRat_eq_div]
  have hp : (0 : ℚ) < ((10 ^ n : ℕ) : ℚ) := by positivity
  rw [div_le_div_iff_of_pos_right hp]
  exact Int.cast_le.mpr (rhe_mono hm)

theorem sortByKeyDesc_sorted {α : Type} (key : α → ℚ) (l : List α) :
    (sortByKeyDesc key l).Sorted (fun a b => key b ≤ key a) := by
  exact @List.sorted_insertionSort α (fun a b => key b ≤ key a)
    (fun a b => inferInstanceAs (Decidable (key b ≤ key a)))
    ⟨fun a b => le_total (key b) (key a)⟩
    ⟨fun a b c hab hbc => le_trans hbc hab⟩ l

theorem sortByKeyDesc_perm {α : Type} (key : α → ℚ) (l : List α) :
    (sortByKeyDesc key l).Perm l :=
  List.perm_insertionSort _ l

/-- `retryGo` returns the first success among the remaining attempts. -/
theorem retryGo_first_success {E A : Type} (f : ℕ → Except E A) :
    ∀ (r n k : ℕ) (a : A), n ≤ k → k ≤ n + r → f k = .ok a →
      (∀ j, n ≤ j → j < k → (f j).isOk = false) →
      retryGo f n r = (.ok a, k) := by
  intro r
  induction r with
  | zero =>
    intro n k a h1 h2 hk _
    have hkn : k = n := by omega
    subst hkn
    simp [retryGo, hk]
  | succ r ih =>
    intro n k a h1 h2 hk hprev
    unfold retryGo
    cases hfn : f n with
    | ok b =>
      have hkn : k = n := by
        by_contra hne
        have hlt : n < k := lt_of_le_of_ne h1 (Ne.symm hne)
        have hj := hprev n le_rfl hlt
        rw [hfn] at hj
        simp [Except.isOk, Except.toBool] at hj
      subst hkn
      rw [hfn] at hk
      injection hk with hba
      rw [hba]
    | error e =>
      have hnk : n < k := by
        rcases lt_or_eq_of_le h1 with h | h
        · exact h
        · subst h; rw [hfn] at hk; cases hk
      exact ih (n + 1) k a hnk (by omega) hk
        (fun j hj hjk => hprev j (by omega) hjk)

/-- `retryGo` surfaces the final attempt's failure when every remaining
attempt fails. -/
theorem retryGo_all_fail {E A : Type} (f : ℕ → Except E A) :
    ∀ (r n : ℕ), (∀ j, n ≤ j → j ≤ n + r → (f j).isOk = false) →
      retryGo f n r = (f (n + r), n + r) := by
  intro r
  induction r with
  | zero =>
    intro n _
    simp [retryGo]
  | succ r ih =>
    intro n h
    unfold retryGo
    cases hfn : f n with
    | ok b =>
      have hj := h n le_rfl (by omega)
      rw [hfn] at hj
      simp [Except.isOk, Except.toBool] at hj
    | error e =>
      have := ih (n + 1) (fun j hj hjr => h j (by omega) (by omega))
      rw [this]
      have harith : n + 1 + r = n + (r + 1) := by omega
      rw [harith]

/-! ### Claim theorems -/

/-- C8: for every call wrapped by `responses_with_backoff`, a first success
among the first 6 attempts is returned as is; when all 6 attempts raise, the
wrapper surfaces the failure after exactly 6 attempts; retrying does not
depend on the exception class or value (the statement quantifies over
arbitrary error types and values); and the randomized exponential backoff
draws each delay from `[0, bound]` with the bound clamped between 1 and 60
time units. -/
theorem responses_with_backoff_spec :
    (∀ (E A : Type) (f : ℕ → Except E A) (k : ℕ) (a : A),
      1 ≤ k → k ≤ 6 → f k = .ok a →
      (∀ j, 1 ≤ j → j < k → (f j).isOk = false) →
      responses_with_backoff f = (.ok a, k))
    ∧ (∀ (E A : Type) (f : ℕ → Except E A) (e : E),
      (∀ j, 1 ≤ j → j ≤ 6 → (f j).isOk = false) → f 6 = .error e →
      responses_with_backoff f = (.error e, 6))
    ∧ (∀ n, 1 ≤ n → mkRat 1 1 ≤ backoffBound n ∧ backoffBound n ≤ mkRat 60 1)
    ∧ (∀ (n : ℕ) (u : ℚ), 0 ≤ u → u ≤ 1 →
      0 ≤ backoffDelay n u ∧ backoffDelay n u ≤ backoffBound n) := by
  have hone : mkRat 1 1 = (1 : ℚ) := by norm_num [Rat.mkRat_eq_div]
  have hsixty : mkRat 60 1 = (60 : ℚ) := by norm_num [Rat.mkRat_eq_div]
  have htwo : mkRat 2 1 = (2 : ℚ) := by norm_num [Rat.mkRat_eq_div]
  have hb1 : ∀ n : ℕ, (1 : ℚ) ≤ backoffBound n := by
    intro n
    unfold backoffBound
    rw [hone]
    calc (1 : ℚ) ≤ max 0 1 := le_max_right 0 1
      _ ≤ _ := le_max_left _ _
  have hb60 : ∀ n : ℕ, backoffBound n ≤ (60 : ℚ) := by
    intro n
    unfold backoffBound
    rw [hone, hsixty]
    apply max_le
    · apply max_le <;> norm_num
    · exact min_le_right _ _
  refine ⟨?_, ?_, ?_, ?_⟩
  · intro E A f k a h1 h6 hk hprev
    exact retryGo_first_success f 5 1 k a h1 (by omega) hk hprev
  · intro E A f e hall h6
    have hfail := retryGo_all_fail f 5 1 (fun j hj hjr => hall j hj (by omega))
    unfold responses_with_backoff
    rw [hfail]
    norm_num [h6]
  · intro n _
    exact ⟨hone ▸ hb1 n, hsixty ▸ hb60 n⟩
  · intro n u hu0 hu1
    have hb0 : (0 : ℚ) ≤ backoffBound n := le_trans zero_le_one (hb1 n)
    constructor
    · exact mul_nonneg hu0 hb0
    · calc backoffDelay n u = u * backoffBound n := rfl
        _ ≤ 1 * backoffBound n := mul_le_mul_of_nonneg_right hu1 hb0
        _ = backoffBound n := one_mul _

/-- Witness for C8: a call that fails five times and succeeds on the 6th
attempt returns that success; a call that always fails raises after exactly
6 attempts; the bound and a sample delay at attempt 3 are inside the
band. -/
theorem responses_with_backoff_spec_witness :
    responses_with_backoff
        (fun n => if n = 6 then (.ok 42 : Except String ℕ) else .error "boom")
      = (.ok 42, 6)
    ∧ responses_with_backoff (fun _ => (.error "boom" : Except String ℕ))
      = (.error "boom", 6)
    ∧ (mkRat 1 1 ≤ backoffBound 3 ∧ backoffBound 3 ≤ mkRat 60 1)
    ∧ (0 ≤ backoffDelay 3 (mkRat 1 2)
        ∧ backoffDelay 3 (mkRat 1 2) ≤ backoffBound 3) := by
  obtain ⟨hsucc, hfail, hbound, hdelay⟩ := responses_with_backoff_spec
  refine ⟨?_, ?_, hbound 3 (by omega), ?_⟩
  · apply hsucc String ℕ _ 6 42 (by omega) (by omega) (by simp)
    intro j hj hjk
    have hne : j ≠ 6 := by omega
    simp [hne, Except.isOk, Except.toBool]
  · exact hfail String ℕ _ "boom"
      (fun j _ _ => by simp [Except.isOk, Except.toBool]) rfl
  · exact hdelay 3 (mkRat 1 2) (by norm_num [Rat.mkRat_eq_div])
      (by norm_num [Rat.mkRat_eq_div])

/-- C4: a request whose raw argument string is not parseable as JSON is
dispatched exactly as if its arguments were absent: the parsed arguments
are the empty mapping, no parse failure escapes, and a recognized tool
name's handler is still invoked (shown for `get_waiver_wire`, which then
runs on its default arguments). -/
theorem unparseable_arguments_dispatch (league : League)
    (parse : String → Option Args) (tc : Item) (s : String)
    (harg : tc.arguments = some s) (hfail : parse s = none) :
    parseToolArgs parse tc = emptyArgs
    ∧ executeToolCall league parse tc
        = executeToolCall league parse { tc with arguments := none }
    ∧ (tc.name = some "get_waiver_wire" →
        executeToolCall league parse tc
          = (do
              let r ← get_waiver_wire_for_tool league none 3
              pure (some { call_id := tc.call_id, output := .waiver r }))) := by
  have hargs : parseToolArgs parse tc = emptyArgs := by
    unfold parseToolArgs
    rw [harg]
    show (parse s).getD emptyArgs = emptyArgs
    rw [hfail]
    rfl
  refine ⟨hargs, ?_, ?_⟩
  · unfold executeToolCall
    rw [hargs]
    rfl
  · intro hname
    unfold executeToolCall
    rw [hargs, hname]
    simp [emptyArgs]

/-- Witness for C4: the waiver item with non-JSON arguments, under a parser
that fails on everything, dispatches on empty arguments. -/
theorem unparseable_arguments_dispatch_witness :
    parseToolArgs failingParse badArgsItem = emptyArgs
    ∧ executeToolCall sampleLeague failingParse badArgsItem
        = executeToolCall sampleLeague failingParse
            { badArgsItem with arguments := none }
    ∧ executeToolCall sampleLeague failingParse badArgsItem
        = (do
            let r ← get_waiver_wire_for_tool sampleLeague none 3
            pure (some { call_id := badArgsItem.call_id,
                         output := .waiver r })) := by
  obtain ⟨h1, h2, h3⟩ :=
    unparseable_arguments_dispatch sampleLeague failingParse badArgsItem
      "not json" rfl rfl
  exact ⟨h1, h2, h3 rfl⟩

/-- A handler-raise propagates through `get_waiver_wire_for_tool` when the
position filter is absent (the handler has no try/except of its own). -/
theorem get_waiver_wire_raises (league : League) (size : ℕ) (e : PyExc)
    (hfa : ∀ n, league.free_agents n = .error e) :
    get_waiver_wire_for_tool league none size = .error e := by
  unfold get_waiver_wire_for_tool
  simp [strTruthy, normalizePosition, hfa 50, Bind.bind, Except.bind,
    Pure.pure, Except.pure]

/-- C2 (amended): a request whose tool name is present but matches none of
the three registered tools completes without raising and produces no
`ToolCallResult` at all — `result` stays `None` and nothing is appended to
the resubmitted outputs, instead of an `{error: ...}` payload being
returned. -/
theorem unknown_tool_dispatch (league : League) (parse : String → Option Args)
    (tc : Item) (nm : String) (hname : tc.name = some nm)
    (hunk : nm ∉ (["get_waiver_wire", "get_team_details",
      "get_player_stats"] : List String)) :
    executeToolCall league parse tc = .ok none := by
  have h1 : ¬(nm = "get_waiver_wire") := fun h => hunk (by simp [h])
  have h2 : ¬(nm = "get_team_details") := fun h => hunk (by simp [h])
  have h3 : ¬(nm = "get_player_stats") := fun h => hunk (by simp [h])
  simp [executeToolCall, hname, h1, h2, h3, Pure.pure, Except.pure]

/-- C2 counterexample: the concrete unknown-tool request is dispatched to
completion with no exception, yet the dispatch yields no result record — in
particular no result whose payload is an `{error: ...}` structure. -/
theorem unknown_tool_dispatch_counterexample :
    executeToolCall sampleLeague failingParse unknownToolItem = .ok none := by
  decide

/-- Witness for the amended C2 at a second concrete unknown tool name. -/
theorem unknown_tool_dispatch_witness :
    executeToolCall sampleLeague failingParse
        { type := some "function_call", name := some "ping",
          call_id := some "call_9" }
      = .ok none := by
  exact unknown_tool_dispatch sampleLeague failingParse _ "ping" rfl (by decide)

/-- C3 (amended): dispatch does not catch handler exceptions — an exception
raised inside a handler propagates out of the dispatch step and aborts the
conversation loop (only the process-level handler in `main()` sees it);
expected data failures, by contrast, are returned by the handlers as
`{error: ...}` payloads inside ordinary results and raise nothing. -/
theorem handler_exception_propagates :
    (∀ (league : League) (parse : String → Option Args) (tc : Item) (e : PyExc),
      tc.name = some "get_waiver_wire" →
      (parseToolArgs parse tc).position = none →
      (∀ n, league.free_agents n = .error e) →
      executeToolCall league parse tc = .error e)
    ∧ (∀ (league : League) (parse : String → Option Args) (tc : Item),
      tc.name = some "get_player_stats" →
      (parseToolArgs parse tc).player_id = none →
      league.teams = [] →
      executeToolCall league parse tc
        = .ok (some { call_id := tc.call_id,
                      output := .player
                        (.error "Player with ID 'None' not found") }))
    ∧ (∀ (league : League) (parse : String → Option Args)
        (host : List (List Output → Response)) (r : Response) (e : PyExc)
        (tc : Item),
      r.output = some [tc] → tc.type = some "function_call" →
      tc.name = some "get_waiver_wire" →
      (parseToolArgs parse tc).position = none →
      (∀ n, league.free_agents n = .error e) →
      runLoop league parse host r = .error e) := by
  have hcall : ∀ (league : League) (parse : String → Option Args) (tc : Item)
      (e : PyExc), tc.name = some "get_waiver_wire" →
      (parseToolArgs parse tc).position = none →
      (∀ n, league.free_agents n = .error e) →
      executeToolCall league parse tc = .error e := by
    intro league parse tc e hname hpos hfa
    have hw := get_waiver_wire_raises league
      ((parseToolArgs parse tc).size.getD 3) e hfa
    simp [executeToolCall, hname, hpos, hw, Bind.bind, Except.bind]
  refine ⟨hcall, ?_, ?_⟩
  · intro league parse tc hname hpid hteams
    simp [executeToolCall, hname, get_player_stats_for_tool, hteams,
      findRosteredPlayer, hpid, pyStrOptInt, Bind.bind, Except.bind,
      Pure.pure, Except.pure]
  · intro league parse host r e tc hout htype hname hpos hfa
    have hc := hcall league parse tc e hname hpos hfa
    have hcalls : collectFunctionCalls [tc] = [tc] := by
      simp [collectFunctionCalls, isFunctionCall, htype]
    have hexec : executeToolCalls league parse [tc] = .error e := by
      simp [executeToolCalls, hc, Bind.bind, Except.bind]
    cases host with
    | nil => simp [runLoop, hout, hcalls, hexec, Bind.bind, Except.bind]
    | cons f rest => simp [runLoop, hout, hcalls, hexec, Bind.bind, Except.bind]

/-- C3 counterexample: a raising provider makes the concrete waiver
dispatch itself raise, refuting "dispatch never raises". -/
theorem dispatch_raises_counterexample :
    executeToolCall raisingLeague failingParse waiverCallItem
      = .error (.exception "ConnectionError") := by
  decide

/-- Witness for the amended C3: the not-found data error comes back as a
result payload without raising, and a provider exception aborts the loop. -/
theorem handler_exception_propagates_witness :
    executeToolCall sampleLeague failingParse
        { type := some "function_call", name := some "get_player_stats",
          call_id := some "call_5" }
      = .ok (some { call_id := some "call_5",
                    output := .player
                      (.error "Player with ID 'None' not found") })
    ∧ runLoop raisingLeague failingParse []
        { id := "resp", output := some [waiverCallItem] }
      = .error (.exception "ConnectionError") := by
  obtain ⟨h1, h2, h3⟩ := handler_exception_propagates
  constructor
  · exact h2 sampleLeague failingParse _ rfl rfl rfl
  · exact h3 raisingLeague failingParse [] _ _ waiverCallItem rfl rfl rfl rfl
      (fun _ => rfl)

/-- A dispatched item whose tool name is one of the three registered tools
contributes exactly one output record carrying the item's `call_id`
whenever its dispatch does not raise. -/
theorem executeToolCall_known (league : League) (parse : String → Option Args)
    (tc : Item) (o : Option Output)
    (hknown : tc.name = some "get_waiver_wire"
      ∨ tc.name = some "get_team_details" ∨ tc.name = some "get_player_stats")
    (hok : executeToolCall league parse tc = .ok o) :
    ∃ out, o = some out ∧ out.call_id = tc.call_id := by
  rcases hknown with h | h | h
  · simp only [executeToolCall, h, Bind.bind, Except.bind, Pure.pure,
      Except.pure] at hok
    cases hw : get_waiver_wire_for_tool league (parseToolArgs parse tc).position
        ((parseToolArgs parse tc).size.getD 3) with
    | error e => rw [hw] at hok; cases hok
    | ok r =>
      rw [hw] at hok
      simp only [reduceIte] at hok
      exact ⟨_, (Except.ok.inj hok).symm, rfl⟩
  · simp only [executeToolCall, h, Bind.bind, Except.bind, Pure.pure,
      Except.pure] at hok
    simp only [reduceIte, String.reduceEq] at hok
    exact ⟨_, (Except.ok.inj hok).symm, rfl⟩
  · simp only [executeToolCall, h, Bind.bind, Except.bind, Pure.pure,
      Except.pure] at hok
    simp only [reduceIte, String.reduceEq] at hok
    cases hw : get_player_stats_for_tool league
        (parseToolArgs parse tc).player_id with
    | error e => rw [hw] at hok; cases hok
    | ok r =>
      rw [hw] at hok
      exact ⟨_, (Except.ok.inj hok).symm, rfl⟩

/-- C1 (amended): in a turn whose collected requests all carry one of the
three registered tool names, the resubmitted input holds exactly one
`ToolCallResult` per collected request, in order, each carrying the
`call_id` of its originating request — no dropped and no duplicated
results.  (A request whose tool name matches no local handler is dropped
instead, see the counterexample.) -/
theorem collected_calls_answered (league : League)
    (parse : String → Option Args) (calls : List Item) (outs : List Output)
    (hknown : ∀ tc ∈ calls, tc.name = some "get_waiver_wire"
      ∨ tc.name = some "get_team_details" ∨ tc.name = some "get_player_stats")
    (hok : executeToolCalls league parse calls = .ok outs) :
    outs.map (fun o => o.call_id) = calls.map (fun tc => tc.call_id) := by
  induction calls generalizing outs with
  | nil =>
    simp only [executeToolCalls, Pure.pure, Except.pure] at hok
    cases hok
    simp
  | cons tc rest ih =>
    cases hc : executeToolCall league parse tc with
    | error e => simp [executeToolCalls, hc, Bind.bind, Except.bind] at hok
    | ok o =>
      cases hr : executeToolCalls league parse rest with
      | error e => simp [executeToolCalls, hc, hr, Bind.bind, Except.bind] at hok
      | ok outs' =>
        obtain ⟨out, ho, hcid⟩ := executeToolCall_known league parse tc o
          (hknown tc (by simp)) hc
        subst ho
        have hout : outs = out :: outs' := by
          simp only [executeToolCalls, hc, hr, Bind.bind, Except.bind,
            Pure.pure, Except.pure] at hok
          exact (Except.ok.inj hok).symm
        subst hout
        rw [List.map_cons, List.map_cons, hcid,
          ih outs' (fun t ht => hknown t (List.mem_cons_of_mem _ ht)) hr]

/-- C1 counterexample: a turn that collects exactly one request, whose tool
name matches no local handler, resubmits an empty output list: one request,
zero results, the request's call_id left unanswered. -/
theorem collected_calls_answered_counterexample :
    executeToolCalls sampleLeague failingParse [unknownToolItem] = .ok []
    ∧ ([] : List Output).length ≠ [unknownToolItem].length := by
  exact ⟨by decide, by decide⟩

/-- Witness for the amended C1: two registered-tool calls come back as
exactly two results whose call_ids match the requests in order. -/
theorem collected_calls_answered_witness :
    (executeToolCalls waiverLeague failingParse
        [waiverCallItem, teamCallItem]).map
        (fun outs => outs.map (fun o => o.call_id))
      = .ok [some "call_1", some "call_2"] := by
  have hko : (executeToolCalls waiverLeague failingParse
      [waiverCallItem, teamCallItem]).isOk = true := by decide
  cases hok : executeToolCalls waiverLeague failingParse
      [waiverCallItem, teamCallItem] with
  | error e => rw [hok] at hko; simp [Except.isOk, Except.toBool] at hko
  | ok outs =>
    have hmap := collected_calls_answered waiverLeague failingParse
      [waiverCallItem, teamCallItem] outs
      (by
        intro tc htc
        simp only [List.mem_cons, List.mem_singleton, List.not_mem_nil,
          or_false] at htc
        rcases htc with h | h <;> subst h
        · left; rfl
        · right; left; rfl)
      hok
    simp only [Except.map]
    rw [hmap]
    rfl

/-- C7: dispatch is sequential and order-preserving: when no dispatch step
raises, the collected outputs are exactly the in-order dispatch projection
of the collected calls — each call's result appears at the position of its
originating call, so results are submitted in the same relative order. -/
theorem dispatch_preserves_order (league : League)
    (parse : String → Option Args) (calls : List Item) (outs : List Output)
    (hok : executeToolCalls league parse calls = .ok outs) :
    outs = calls.filterMap (execOne league parse) := by
  induction calls generalizing outs with
  | nil =>
    simp only [executeToolCalls, Pure.pure, Except.pure] at hok
    cases hok
    simp
  | cons tc rest ih =>
    cases hc : executeToolCall league parse tc with
    | error e => simp [executeToolCalls, hc, Bind.bind, Except.bind] at hok
    | ok o =>
      cases hr : executeToolCalls league parse rest with
      | error e => simp [executeToolCalls, hc, hr, Bind.bind, Except.bind] at hok
      | ok outs' =>
        have hstep : execOne league parse tc = o := by simp [execOne, hc]
        have htail := ih outs' hr
        cases o with
        | none =>
          simp only [executeToolCalls, hc, hr, Bind.bind, Except.bind,
            Pure.pure, Except.pure] at hok
          cases hok
          simp [List.filterMap_cons, hstep, htail]
        | some out =>
          simp only [executeToolCalls, hc, hr, Bind.bind, Except.bind,
            Pure.pure, Except.pure] at hok
          cases hok
          simp [List.filterMap_cons, hstep, htail]

/-- Witness for C7: on two concrete calls, the produced output list is the
in-order dispatch projection of the call list. -/
theorem dispatch_preserves_order_witness :
    executeToolCalls waiverLeague failingParse [teamCallItem, waiverCallItem]
      = .ok ([teamCallItem, waiverCallItem].filterMap
          (execOne waiverLeague failingParse)) := by
  have hko : (executeToolCalls waiverLeague failingParse
      [teamCallItem, waiverCallItem]).isOk = true := by decide
  cases hok : executeToolCalls waiverLeague failingParse
      [teamCallItem, waiverCallItem] with
  | error e => rw [hok] at hko; simp [Except.isOk, Except.toBool] at hko
  | ok outs =>
    rw [dispatch_preserves_order waiverLeague failingParse
      [teamCallItem, waiverCallItem] outs hok]

/-- A left fold that appends a per-element string is the concatenation of
the per-element strings after the seed. -/
theorem foldl_append_strConcat {α : Type} (g : α → String)
    (step : String → α → String) (hstep : ∀ a x, step a x = a ++ g x) :
    ∀ (l : List α) (acc : String),
      l.foldl step acc = acc ++ strConcat (l.map g) := by
  intro l
  induction l with
  | nil => intro acc; simp [strConcat, String.append_empty]
  | cons x rest ih =>
    intro acc
    simp only [List.foldl_cons, List.map_cons, strConcat]
    rw [hstep, ih, String.append_assoc]

/-- The fallback extraction is the in-order concatenation of the per-item
message text. -/
theorem messageText_eq_strConcat (items : List Item) :
    messageText items = strConcat (items.map itemText) := by
  unfold messageText
  rw [foldl_append_strConcat itemText]
  · exact String.empty_append _
  · intro a it
    unfold itemText
    cases htype : (it.type == some "message") with
    | false => simp [htype, String.append_empty]
    | true =>
      simp only [htype, if_true]
      cases hc : it.content with
      | none => simp [String.append_empty]
      | some cs =>
        simp only [Option.map_some, Option.getD_some]
        rw [foldl_append_strConcat fragText]
        · rfl
        · intro b ci
          unfold fragText
          cases hty : (ci.type == some "output_text") with
          | false => simp [hty, String.append_empty]
          | true =>
            simp only [hty, if_true]
            cases ht : ci.text with
            | none => simp [String.append_empty]
            | some t => simp

/-- C5: a response whose output holds zero function-call items ends the
conversation at once: the loop returns the extracted text, whatever the
host script still holds and however many host-native web-search items the
output contains; and a web-search item is never collected for local
dispatch. -/
theorem loop_terminates_without_tool_calls :
    (∀ (league : League) (parse : String → Option Args)
        (host : List (List Output → Response)) (r : Response)
        (items : List Item),
      r.output = some items →
      (∀ it ∈ items, it.type ≠ some "function_call") →
      runLoop league parse host r = .ok (extractFinalText r))
    ∧ (∀ (items : List Item) (it : Item), it ∈ items →
      it.type = some "web_search_call" → it ∉ collectFunctionCalls items) := by
  constructor
  · intro league parse host r items hout hnone
    have hempty : collectFunctionCalls items = [] := by
      unfold collectFunctionCalls
      rw [List.filter_eq_nil_iff]
      intro it hit
      simp [isFunctionCall, hnone it hit]
    simp [runLoop, hout, hempty, Pure.pure, Except.pure]
  · intro items it hmem htype hcol
    have hf := (List.mem_filter.mp hcol).2
    rw [isFunctionCall, htype] at hf
    simp at hf

/-- Witness for C5: a response with two web-search items and a message item
terminates the loop with the message text, with an empty host script. -/
theorem loop_terminates_without_tool_calls_witness :
    runLoop sampleLeague failingParse [] webOnlyResponse = .ok "done" := by
  obtain ⟨h1, _⟩ := loop_terminates_without_tool_calls
  have hrun := h1 sampleLeague failingParse [] webOnlyResponse
    [webSearchItem, webSearchItem, doneMessageItem] rfl
    (by
      intro it hit
      simp only [List.mem_cons, List.not_mem_nil, or_false] at hit
      rcases hit with h | h | h <;> subst h <;> decide)
  rw [hrun]
  decide

/-- C6 (amended): once the loop has terminated, the returned text is the
non-empty convenience `output_text` field when the response exposes one;
otherwise it is the in-order concatenation of the text fragments of the
message-type items — except that when that concatenation is empty the
placeholder `"Analysis complete."` is returned instead. -/
theorem final_text_extraction (r : Response) (items : List Item)
    (hout : r.output = some items) :
    (∀ s, r.output_text = some s → s ≠ "" → extractFinalText r = s)
    ∧ (strTruthy r.output_text = false → messageText items ≠ "" →
        extractFinalText r = messageText items)
    ∧ (strTruthy r.output_text = false → messageText items = "" →
        extractFinalText r = "Analysis complete.")
    ∧ messageText items = strConcat (items.map itemText) := by
  refine ⟨?_, ?_, ?_, messageText_eq_strConcat items⟩
  · intro s hs hne
    unfold extractFinalText
    have ht : strTruthy r.output_text = true := by simp [strTruthy, hs, hne]
    rw [ht]
    simp [hs]
  · intro hfalse hne
    unfold extractFinalText
    rw [hfalse, hout]
    simp [hne]
  · intro hfalse hempt
    unfold extractFinalText
    rw [hfalse, hout]
    simp [hempt]

/-- C6 counterexample: with no convenience text field and no message items
the concatenation of message fragments is empty, yet the extraction returns
the placeholder `"Analysis complete."`, not that (empty) concatenation. -/
theorem final_text_extraction_counterexample :
    extractFinalText { id := "r0", output := some ([] : List Item) }
        = "Analysis complete."
    ∧ messageText ([] : List Item) = ""
    ∧ ("Analysis complete." : String) ≠ "" := by
  exact ⟨by decide, by decide, by decide⟩

/-- Witness for the amended C6: a message-only response returns the
fragment concatenation. -/
theorem final_text_extraction_witness :
    extractFinalText { id := "rw", output := some [doneMessageItem] }
        = messageText [doneMessageItem]
    ∧ messageText [doneMessageItem]
        = strConcat ([doneMessageItem].map itemText) := by
  obtain ⟨h1, h2, h3, h4⟩ :=
    final_text_extraction { id := "rw", output := some [doneMessageItem] }
      [doneMessageItem] rfl
  exact ⟨h2 rfl (by decide), h4⟩

/-- Inversion of a successful waiver-tool call: there is a successful
free-agent fetch, and the returned list is the rounded, size-limited,
descending-sorted selection over it. -/
theorem get_waiver_wire_ok_elim (league : League) (position0 : Option String)
    (size : ℕ) (ps : String) (lst : List PlayerInfo) (cnt : ℕ) (note : String)
    (hok : get_waiver_wire_for_tool league position0 size
      = .ok (.players ps lst cnt note)) :
    ∃ fas,
      league.free_agents
          (if strTruthy (normalizePosition position0) then 75 else 50)
        = .ok fas
      ∧ lst = (((sortByKeyDesc (fun x => x.projected_points)
            ((fas.filter (positionFilter (normalizePosition position0))).filterMap
              (waiverSelect league))).take size).map roundInfo) := by
  unfold get_waiver_wire_for_tool at hok
  split at hok
  · simp [Pure.pure, Except.pure] at hok
  · simp only [Bind.bind, Except.bind, Pure.pure, Except.pure] at hok
    cases hfa : league.free_agents
        (if strTruthy (normalizePosition position0) then 75 else 50) with
    | error e =>
      rw [hfa] at hok
      simp at hok
    | ok fas =>
      rw [hfa] at hok
      refine ⟨fas, rfl, ?_⟩
      split at hok
      · rename_i err heq
        simp at heq
      · rename_i v heq
        injection heq with hv
        subst hv
        split at hok
        · injection hok with hbad
          exact absurd hbad (by simp)
        · injection hok with h1
          injection h1 with hps hlst hcnt hnote
          exact hlst.symm

/-- A nonzero weekly projection certifies that the player's `stats` dict
holds a `projected_points` entry for the current week with that value. -/
theorem weeklyProjection_spec (league : League) (p : Player)
    (h : weeklyProjection league p ≠ 0) :
    ∃ st kv, p.stats = some st
      ∧ st.find? (fun kv => kv.1 == league.current_week) = some kv
      ∧ kv.2.projected_points = some (weeklyProjection league p) := by
  unfold weeklyProjection at h ⊢
  split at h
  · exact absurd rfl h
  · rename_i st hs
    split at h
    · rename_i kv hf
      split at h
      · rename_i v hp
        refine ⟨st, kv, hs, hf, ?_⟩
        simp [hs, hf, hp]
      · exact absurd rfl h
    · exact absurd rfl h

/-- C9: every successful `get_waiver_wire` invocation returns at most
`size` entries, pairwise sorted by projected points in non-increasing
order; every entry stems from a fetched free agent whose current-week
projection exceeds 2.0 and carries exactly that projection rounded to one
decimal; and free agents with no current-week projection are excluded —
each entry's source player provably has a current-week `projected_points`
entry in its `stats` dict. -/
theorem waiver_wire_output_spec (league : League) (position0 : Option String)
    (size : ℕ) (ps : String) (lst : List PlayerInfo) (cnt : ℕ) (note : String)
    (hok : get_waiver_wire_for_tool league position0 size
      = .ok (.players ps lst cnt note)) :
    lst.length ≤ size
    ∧ (lst.map (fun e => e.projected_points)).Pairwise (fun a b => b ≤ a)
    ∧ ∀ e ∈ lst, ∃ fas p,
        league.free_agents
            (if strTruthy (normalizePosition position0) then 75 else 50)
          = .ok fas
        ∧ p ∈ fas
        ∧ weeklyProjection league p > mkRat 2 1
        ∧ e.projected_points = pyRound 1 (weeklyProjection league p)
        ∧ ∃ st kv, p.stats = some st
            ∧ st.find? (fun kv => kv.1 == league.current_week) = some kv
            ∧ kv.2.projected_points = some (weeklyProjection league p) := by
  obtain ⟨fas, hfa, hlst⟩ :=
    get_waiver_wire_ok_elim league position0 size ps lst cnt note hok
  subst hlst
  have hsorted := sortByKeyDesc_sorted (fun x : PlayerInfo => x.projected_points)
    ((fas.filter (positionFilter (normalizePosition position0))).filterMap
      (waiverSelect league))
  have htake := List.Pairwise.sublist (List.take_sublist size _) hsorted
  refine ⟨?_, ?_, ?_⟩
  · rw [List.length_map, List.length_take]
    exact min_le_left _ _
  · rw [List.map_map, List.pairwise_map]
    exact htake.imp (fun hab => pyRound_mono 1 hab)
  · intro e he
    rw [List.mem_map] at he
    obtain ⟨x, hx, hex⟩ := he
    have hx2 := (List.take_sublist size _).subset hx
    have hx3 := (sortByKeyDesc_perm (fun x : PlayerInfo => x.projected_points)
      _).subset hx2
    rw [List.mem_filterMap] at hx3
    obtain ⟨p, hp, hsel⟩ := hx3
    have hpfas : p ∈ fas := (List.mem_filter.mp hp).1
    unfold waiverSelect at hsel
    split at hsel
    · rename_i hgt
      injection hsel with hxp
      subst hxp
      refine ⟨fas, p, hfa, hpfas, hgt, ?_, ?_⟩
      · rw [← hex]
        rfl
      · apply weeklyProjection_spec
        have h2 : (0 : ℚ) < mkRat 2 1 := by norm_num [Rat.mkRat_eq_div]
        exact ne_of_gt (lt_trans h2 hgt)
    · cases hsel

/-- Witness for C9 on the concrete league: the two eligible free agents
come back as 5.0 then 3.0 — within the size bound, non-increasing, each
above the 2.0 cutoff with a certified current-week projection. -/
theorem waiver_wire_output_spec_witness :
    waiverOutList.length ≤ 3
    ∧ (waiverOutList.map (fun e => e.projected_points)).Pairwise
        (fun a b => b ≤ a)
    ∧ ∀ e ∈ waiverOutList, ∃ fas p,
        waiverLeague.free_agents
            (if strTruthy (normalizePosition none) then 75 else 50)
          = .ok fas
        ∧ p ∈ fas
        ∧ weeklyProjection waiverLeague p > mkRat 2 1
        ∧ e.projected_points = pyRound 1 (weeklyProjection waiverLeague p)
        ∧ ∃ st kv, p.stats = some st
            ∧ st.find? (fun kv => kv.1 == waiverLeague.current_week) = some kv
            ∧ kv.2.projected_points
                = some (weeklyProjection waiverLeague p) := by
  exact waiver_wire_output_spec waiverLeague none 3 "All" waiverOutList 2
    "Use get_player_stats tool with player_id for detailed analysis of any player"
    (by decide)

/-- The roster search comes up empty when no rostered player matches. -/
theorem findRosteredPlayer_eq_none (teams : List Team) (pid : Option ℤ)
    (h : ∀ t ∈ teams, ∀ r, t.roster = some r → ∀ p ∈ r,
      playerMatches pid p = false) :
    findRosteredPlayer teams pid = none := by
  induction teams with
  | nil => rfl
  | cons t ts ih =>
    unfold findRosteredPlayer
    have hfind : (t.roster.getD []).find? (playerMatches pid) = none := by
      rw [List.find?_eq_none]
      intro p hp
      cases hr : t.roster with
      | none => rw [hr] at hp; simp at hp
      | some r =>
        rw [hr] at hp
        simp only [Option.getD_some] at hp
        simp [h t (by simp) r hr p hp]
    rw [hfind]
    exact ih (fun t2 ht2 r hr p hp => h t2 (List.mem_cons_of_mem _ ht2) r hr p hp)

/-- `get_player_stats_for_tool` answers with the not-found error payload
whenever no rostered player matches the requested id. -/
theorem get_player_stats_not_found (league : League) (pid : Option ℤ)
    (h : ∀ t ∈ league.teams, ∀ r, t.roster = some r → ∀ p ∈ r,
      playerMatches pid p = false) :
    get_player_stats_for_tool league pid
      = .ok (.error ("Player with ID '" ++ pyStrOptInt pid ++ "' not found")) := by
  unfold get_player_stats_for_tool
  rw [findRosteredPlayer_eq_none league.teams pid h]
  rfl

/-- C10: a player id held by no league roster makes
`get_player_stats_for_tool` return the not-found error payload — the
search covers team rosters only.  In particular, when the fetched free
agents are disjoint from every roster (free agents are exactly the players
on no roster), every `player_id` of a successful waiver result — whose
note directs the model to call `get_player_stats` with those ids — is
never found by `get_player_stats_for_tool`. -/
theorem player_stats_roster_only :
    (∀ (league : League) (pid : Option ℤ),
      (∀ t ∈ league.teams, ∀ r, t.roster = some r → ∀ p ∈ r,
        playerMatches pid p = false) →
      get_player_stats_for_tool league pid
        = .ok (.error ("Player with ID '" ++ pyStrOptInt pid ++ "' not found")))
    ∧ (∀ (league : League) (position0 : Option String) (size : ℕ)
        (ps : String) (lst : List PlayerInfo) (cnt : ℕ) (note : String),
      get_waiver_wire_for_tool league position0 size
        = .ok (.players ps lst cnt note) →
      (∀ n fas, league.free_agents n = .ok fas → ∀ q ∈ fas,
        ∀ t ∈ league.teams, ∀ r, t.roster = some r → ∀ p ∈ r,
        playerMatches q.playerId p = false) →
      ∀ e ∈ lst,
        get_player_stats_for_tool league e.player_id
          = .ok (.error ("Player with ID '" ++ pyStrOptInt e.player_id
              ++ "' not found"))) := by
  refine ⟨get_player_stats_not_found, ?_⟩
  intro league position0 size ps lst cnt note hok hdisj e he
  obtain ⟨fas, hfa, hlst⟩ :=
    get_waiver_wire_ok_elim league position0 size ps lst cnt note hok
  subst hlst
  rw [List.mem_map] at he
  obtain ⟨x, hx, hex⟩ := he
  have hx3 := (sortByKeyDesc_perm (fun x : PlayerInfo => x.projected_points)
    _).subset ((List.take_sublist size _).subset hx)
  rw [List.mem_filterMap] at hx3
  obtain ⟨p, hp, hsel⟩ := hx3
  have hpfas : p ∈ fas := (List.mem_filter.mp hp).1
  unfold waiverSelect at hsel
  split at hsel
  · injection hsel with hxp
    subst hxp
    have hid : e.player_id = p.playerId := by rw [← hex]; rfl
    rw [hid]
    exact get_player_stats_not_found league p.playerId (hdisj _ fas hfa p hpfas)
  · cases hsel

/-- Witness for C10: the concrete waiver entry with id 10 (a free agent)
and the absent id 99 are both answered with the not-found payload. -/
theorem player_stats_roster_only_witness :
    get_player_stats_for_tool waiverLeague (some 10)
      = .ok (.error ("Player with ID '" ++ pyStrOptInt (some 10)
          ++ "' not found"))
    ∧ get_player_stats_for_tool waiverLeague (some 99)
      = .ok (.error ("Player with ID '" ++ pyStrOptInt (some 99)
          ++ "' not found")) := by
  obtain ⟨h1, h2⟩ := player_stats_roster_only
  constructor
  · have hres := h2 waiverLeague none 3 "All" waiverOutList 2
      "Use get_player_stats tool with player_id for detailed analysis of any player"
      (by decide)
      (by
        intro n fas hfa q hq t ht r hr p hp
        injection hfa with hfa1
        subst hfa1
        simp only [waiverLeague, List.mem_cons, List.not_mem_nil,
          or_false] at ht hq
        subst ht
        injection hr with hr2
        subst hr2
        simp only [List.mem_cons, List.not_mem_nil, or_false] at hp
        subst hp
        rcases hq with h | h | h | h <;> subst h <;> decide)
      ({ player_id := some 10, name := "Alpha", position := "RB",
         team := "N/A", projected_points := mkRat 5 1, bye_week := none,
         injury_status := none } : PlayerInfo)
      (by decide)
    exact hres
  · exact h1 waiverLeague (some 99)
      (by
        intro t ht r hr p hp
        simp only [waiverLeague, List.mem_cons, List.not_mem_nil,
          or_false] at ht
        subst ht
        injection hr with hr2
        subst hr2
        simp only [List.mem_cons, List.not_mem_nil, or_false] at hp
        subst hp
        decide)

end FantasyAgent
